import Mathlib

/-!
Verification development for the apple-health-importer pipeline.

Shallow embedding notes shared by all definitions below:
* Python `datetime` instants are modelled as integers (seconds); the ISO-8601
  strings produced by the pipeline are normalized so that string order and
  instant order agree, and `datetime.fromisoformat` / `datetime.strptime` are
  passed in as explicit partial functions `String → Option Int` where the
  actual string representation matters.
* Python numeric values (floats) are modelled as rationals; only order
  comparisons and sums appear in the embedded code paths.
* Python dicts keyed by strings are modelled as association lists; `dict.get`
  is `List.lookup`, and a JSON value that may be `null` is an `Option`.
* A caught Python exception is an `Except.error ()`; a function whose
  exceptions are all caught internally is `Option`-valued.
-/

namespace AppleHealth

/-! ## Import Tracker (`import_tracker.py`) -/

/-- The `last_timestamps` part of the import-history document:
measurement name → stored timestamp string or JSON `null`. -/
abbrev LastTimestamps := List (String × Option String)

/-- `ImportTracker.import_history['last_timestamps'].get(measurement)`:
`none` when the key is absent or its value is `null`. -/
def lastTimestampStr (h : LastTimestamps) (measurement : String) : Option String :=
  match h.lookup measurement with
  | some v => v
  | none => none

/-- `ImportTracker.get_last_import_time`: reads the stored timestamp string,
returns `None` when it is absent, `null`, empty (falsy) or unparseable
(`datetime.fromisoformat` raising inside the `try` is caught). `parse` stands
for `datetime.fromisoformat` after the `'Z' → '+00:00'` replacement. -/
def get_last_import_time (parse : String → Option Int) (h : LastTimestamps)
    (measurement : String) : Option Int :=
  match lastTimestampStr h measurement with
  | none => none
  | some s => if s = "" then none else parse s

/-- `ImportTracker.should_import_record`: `True` when the record's timestamp
fails to parse (the exception is caught and the record is imported "when in
doubt"), `True` when there is no previous import for the measurement, and
otherwise `record_dt > last_import`. -/
def should_import_record (parse : String → Option Int) (h : LastTimestamps)
    (record_time : String) (measurement : String) : Bool :=
  match parse record_time with
  | none => true
  | some rt =>
    match get_last_import_time parse h measurement with
    | none => true
    | some li => li < rt

/-- A point as seen by the incremental filter: its resolved measurement name
and its ISO timestamp string. -/
structure TrackPoint where
  measurement : String
  time : String
deriving DecidableEq, Repr

/-- The incremental filter of
`StreamingHealthDataProcessor.process_batch` (parsers/streaming.py): a point
whose measurement is one of the configured measurement names is kept iff
`should_import_record` accepts it; a point with an unknown measurement is
always kept. -/
def incremental_filter (parse : String → Option Int) (h : LastTimestamps)
    (measurementNames : List String) (points : List TrackPoint) : List TrackPoint :=
  points.filter fun p =>
    if measurementNames.contains p.measurement then
      should_import_record parse h p.time p.measurement
    else
      true

/-! ## Import Tracker: run-completion update (`update_last_timestamps`) -/

/-- A point as seen by `update_last_timestamps`: only its `time` string is
read (`max(..., key=lambda x: x['time'])`). -/
structure TimedPoint where
  time : String
deriving DecidableEq, Repr

/-- Python `max(points, key=lambda x: x['time'])`: first point with the
maximal time (later points replace the current one only when strictly
greater). Total with a default for `[]`; every call site guards nonemptiness. -/
def latestByTime (points : List TimedPoint) : TimedPoint :=
  match points with
  | [] => ⟨""⟩
  | p :: rest => rest.foldl (fun acc q => if acc.time < q.time then q else acc) p

/-- Overwrite-or-append assignment `d[k] = v` on an association list. -/
def dictInsert {β : Type} (l : List (String × β)) (k : String) (v : β) :
    List (String × β) :=
  if l.any (fun e => e.1 = k) then
    l.map (fun e => if e.1 = k then (k, v) else e)
  else
    l ++ [(k, v)]

/-- The per-category buckets handed to `update_last_timestamps`. -/
structure TrackerPoints where
  vitals : List TimedPoint
  activity : List TimedPoint
  sleep : List TimedPoint
deriving DecidableEq, Repr

/-- `ImportTracker.update_last_timestamps`: for each nonempty bucket, set the
corresponding measurement's last timestamp to the maximal `time` in the
bucket; empty buckets contribute nothing. -/
def update_last_timestamps (h : LastTimestamps) (dp : TrackerPoints) : LastTimestamps :=
  let h1 := match dp.vitals with
    | [] => h
    | ps => dictInsert h "heartrate_bpm" (some (latestByTime ps).time)
  let h2 := match dp.activity with
    | [] => h1
    | ps => dictInsert h1 "energy_kcal" (some (latestByTime ps).time)
  match dp.sleep with
  | [] => h2
  | ps => dictInsert h2 "sleep_duration_min" (some (latestByTime ps).time)

/-- `StreamingHealthDataProcessor._create_data_points_for_tracker`
(streaming_processor.py): returns empty per-category buckets — the code
comments that real timestamp tracking during processing is not implemented. -/
def create_data_points_for_tracker : TrackerPoints :=
  { vitals := [], activity := [], sleep := [] }

/-! ## Validator (`data_validator.py` and `validation/validator.py`) -/

/-- A validation finding, abstracting the formatted message strings. -/
inductive Finding where
  | hrRange
  | hrTypical
  | sedentaryHigh
  | activeLow
  | fieldRange (field : String)
  | fieldTypical (field : String)
deriving DecidableEq, Repr

/-- Mirror of the `ValidationResult` dataclass (the unused `corrected_value`
is omitted: no rule ever populates it). -/
structure ValidationResult where
  is_valid : Bool
  errors : List Finding
  warnings : List Finding
deriving DecidableEq, Repr

/-- The heart-rate motion-context warnings shared by both validators:
`'0'` (sedentary) with value above 120 warns, `'2'` (active) with value below
80 warns. `context` is the `motion_context` entry of the point's tags. -/
def motionContextWarnings (value : ℚ) (context : Option String) : List Finding :=
  match context with
  | none => []
  | some motion =>
    if motion = "0" then
      if 120 < value then [Finding.sedentaryHigh] else []
    else if motion = "2" then
      if value < 80 then [Finding.activeLow] else []
    else []

/-- `HealthDataValidator.validate_heart_rate` of the legacy
`data_validator.py`, with its hard-coded rules min 30, max 250, typical
40–200: a hard-range violation is an error, `elif` outside the typical range
is a warning, then the independent motion-context checks append warnings. -/
def validate_heart_rate_legacy (value : ℚ) (context : Option String) : ValidationResult :=
  let errors := if value < 30 ∨ 250 < value then [Finding.hrRange] else []
  let warnings :=
    if ¬(value < 30 ∨ 250 < value) ∧ (value < 40 ∨ 200 < value) then
      [Finding.hrTypical]
    else []
  let warnings := warnings ++ motionContextWarnings value context
  { is_valid := errors = [], errors := errors, warnings := warnings }

/-- A per-field rule dictionary: the optional keys `min`, `max`,
`typical_min`, `typical_max` as used by the configuration-driven validator. -/
structure Rules where
  min : Option ℚ
  max : Option ℚ
  typical_min : Option ℚ
  typical_max : Option ℚ
deriving DecidableEq, Repr

/-- `HealthDataValidator.validate_heart_rate` of
`validation/validator.py`: `rules = none` models the empty (falsy) rules
dict. The `elif` chains on KEY PRESENCE: when `min`/`max` are both present
only the hard range is ever checked, and the typical branch is reached only
when `min`/`max` are not both present. Motion-context checks follow
independently. -/
def validate_heart_rate_cfg (rules : Option Rules) (value : ℚ)
    (context : Option String) : ValidationResult :=
  let errors :=
    match rules with
    | none => []
    | some r =>
      match r.min, r.max with
      | some lo, some hi => if value < lo ∨ hi < value then [Finding.hrRange] else []
      | _, _ => []
  let warnings :=
    match rules with
    | none => []
    | some r =>
      match r.min, r.max with
      | some _, some _ => []
      | _, _ =>
        match r.typical_min, r.typical_max with
        | some lo, some hi => if value < lo ∨ hi < value then [Finding.hrTypical] else []
        | _, _ => []
  let warnings := warnings ++ motionContextWarnings value context
  { is_valid := errors = [], errors := errors, warnings := warnings }

/-- `HealthDataValidator._validate_field_with_rules` of
`validation/validator.py`: the hard check fires when both `min` and `max`
exist; the typical check fires when both typical bounds exist AND
`len(errors) == 0`. -/
def validate_field_with_rules (value : ℚ) (field : String) (r : Rules) : ValidationResult :=
  let errors :=
    match r.min, r.max with
    | some lo, some hi => if value < lo ∨ hi < value then [Finding.fieldRange field] else []
    | _, _ => []
  let warnings :=
    match r.typical_min, r.typical_max with
    | some lo, some hi =>
      if errors = [] then
        if value < lo ∨ hi < value then [Finding.fieldTypical field] else []
      else []
    | _, _ => []
  { is_valid := errors = [], errors := errors, warnings := warnings }

/-- The configuration rule set used in the C2 counterexample: hard range
[30, 250] and typical range [40, 200], i.e. the documented heart-rate rule
expressed with the configuration keys `min`/`max`/`typical_min`/`typical_max`. -/
def hrRulesBoth : Rules :=
  { min := some 30, max := some 250, typical_min := some 40, typical_max := some 200 }

/-! ## Category Registry (`config_manager.py`, mirrored by the package's
`config/manager.py` as used from `writers/influxdb.py`) -/

/-- `MeasurementConfig` restricted to the members the Storage Writer reads. -/
structure MeasurementConfig where
  types : List String
  measurement_name : String
  tags : List String
deriving DecidableEq, Repr

/-- The configuration state read by the Storage Writer: the per-category
measurement configs (an insertion-ordered dict) plus the global tunables. -/
structure ConfigM where
  measurements : List (String × MeasurementConfig)
  batchSize : ℕ
  windowHours : ℕ
  maxRetries : ℕ
  retryDelayBase : ℚ
deriving Repr

/-- `ConfigManager.find_measurement_category`: linear scan over the
categories in order; the first whose `types` list contains the data type. -/
def find_measurement_category (cfg : ConfigM) (dataType : String) : Option String :=
  (cfg.measurements.find? (fun c => c.2.types.contains dataType)).map (fun c => c.1)

/-- `ConfigManager.get_measurement_config`: dict lookup by category name. -/
def get_measurement_config (cfg : ConfigM) (category : String) : Option MeasurementConfig :=
  cfg.measurements.lookup category

/-! ## Storage Writer (`writers/influxdb.py`) -/

/-- A candidate data point handed to the writer: raw type, the measurement
name the pipeline assigned, timestamp (an instant), numeric fields and
string-or-null tags. -/
structure RawPoint where
  rtype : String
  measurement : String
  time : Int
  fields : List (String × ℚ)
  tags : List (String × Option String)
deriving DecidableEq, Repr

/-- A point in InfluxDB wire shape, as produced by `prepare_point`. -/
structure PreparedPoint where
  measurement : String
  time : Int
  tags : List (String × String)
  fields : List (String × ℚ)
deriving DecidableEq, Repr

/-- The store's contents, as (measurement, timestamp) pairs — the only
information the duplicate protocol consults. -/
abbrev Store := List (String × Int)

/-- The external query interface: given measurement and inclusive time range,
either the query raises (`error`) or yields the matching timestamps. -/
abbrev StoreQuery := String → Int → Int → Except Unit (List Int)

/-- A live store: the range query returns every stored timestamp of the
measurement inside the range, capped at 10000 rows by the query's `LIMIT`. -/
def goodStore (store : Store) : StoreQuery := fun m lo hi =>
  Except.ok ((((store.filter (fun e => e.1 = m ∧ lo ≤ e.2 ∧ e.2 ≤ hi)).map
    (fun e => e.2)).take 10000))

/-- `InfluxDBWriter.check_for_duplicates`: runs the range query; any raised
exception is caught and the empty set returned (fail-open). -/
def check_for_duplicates (q : StoreQuery) (measurement : String) (lo hi : Int) :
    List Int :=
  match q measurement lo hi with
  | Except.error _ => []
  | Except.ok ts => ts

/-- First-occurrence list of the measurements of a batch, mirroring the
insertion order of the `measurements_timeranges` dict. -/
def measurementsOf (ps : List RawPoint) : List String :=
  ps.foldl (fun acc p => if acc.contains p.measurement then acc else acc ++ [p.measurement])
    []

/-- The timestamps of a batch belonging to one measurement. -/
def groupTimes (ps : List RawPoint) (m : String) : List Int :=
  (ps.filter (fun p => p.measurement = m)).map (fun p => p.time)

/-- Minimum of a timestamp list (the incremental `min` of
`load_existing_data_cache`); every call site guarantees nonemptiness. -/
def listMinD : List Int → Int
  | [] => 0
  | x :: xs => xs.foldl min x

/-- Maximum of a timestamp list (the incremental `max` of
`load_existing_data_cache`). -/
def listMaxD : List Int → Int
  | [] => 0
  | x :: xs => xs.foldl max x

/-- The duplicate cache `self.existing_timestamps`:
measurement → timestamps known to exist in the store. -/
abbrev DupCache := List (String × List Int)

/-- `InfluxDBWriter.load_existing_data_cache`: group the batch by
measurement, expand each group's time span by the configured window
(`duplicate_check_window_hours`, in hours = 3600 s) on both ends, and cache
the store's existing timestamps for that span. -/
def load_existing_data_cache (q : StoreQuery) (windowHours : ℕ) (ps : List RawPoint) :
    DupCache :=
  (measurementsOf ps).map fun m =>
    let ts := groupTimes ps m
    (m, check_for_duplicates q m (listMinD ts - (windowHours : Int) * 3600)
      (listMaxD ts + (windowHours : Int) * 3600))

/-- `InfluxDBWriter.is_duplicate`: a point is a duplicate iff its measurement
has a cache entry and its exact timestamp is in that entry. -/
def is_duplicate (cache : DupCache) (measurement : String) (time : Int) : Bool :=
  match cache.lookup measurement with
  | some ts => ts.contains time
  | none => false

/-- The fixed `type_field_mapping` of `_get_field_name_for_type`. -/
def type_field_mapping : List (String × String) :=
  [("HKQuantityTypeIdentifierHeartRate", "heart_rate"),
   ("HKQuantityTypeIdentifierRestingHeartRate", "resting_heart_rate"),
   ("HKQuantityTypeIdentifierHeartRateVariabilitySDNN", "hrv_sdnn"),
   ("HKQuantityTypeIdentifierBodyMass", "weight"),
   ("HKQuantityTypeIdentifierHeight", "height"),
   ("HKQuantityTypeIdentifierActiveEnergyBurned", "active_energy"),
   ("HKQuantityTypeIdentifierBasalEnergyBurned", "basal_energy"),
   ("HKQuantityTypeIdentifierStepCount", "steps"),
   ("HKQuantityTypeIdentifierDistanceWalkingRunning", "distance"),
   ("HKQuantityTypeIdentifierFlightsClimbed", "flights"),
   ("HKQuantityTypeIdentifierOxygenSaturation", "oxygen_saturation"),
   ("HKQuantityTypeIdentifierRespiratoryRate", "respiratory_rate"),
   ("HKQuantityTypeIdentifierVO2Max", "vo2_max"),
   ("HKQuantityTypeIdentifierWalkingSpeed", "walking_speed"),
   ("HKQuantityTypeIdentifierRunningSpeed", "running_speed"),
   ("HKQuantityTypeIdentifierAppleExerciseTime", "exercise_time"),
   ("HKQuantityTypeIdentifierAppleStandTime", "stand_time")]

/-- `InfluxDBWriter._get_field_name_for_type` with its `"value"` default. -/
def field_name_for_type (dataType : String) : String :=
  (type_field_mapping.lookup dataType).getD "value"

/-- `InfluxDBWriter.get_measurement_category`: registry lookup with the
literal fallback category name `"other"`. -/
def get_measurement_category (cfg : ConfigM) (dataType : String) : String :=
  (find_measurement_category cfg dataType).getD "other"

/-- Python `str.strip()`: drop leading and trailing whitespace, modelled over
the string's character list so that the kernel can evaluate it. -/
def pStrip (s : String) : String :=
  ⟨((s.data.dropWhile Char.isWhitespace).reverse.dropWhile Char.isWhitespace).reverse⟩

/-- One step of the tag-building loop of `prepare_point`: a whitelisted tag
name whose source value is present, non-null and non-empty after stripping
is assigned (dict overwrite); anything else is skipped. -/
def tagStep (p : RawPoint) (acc : List (String × String)) (tagName : String) :
    List (String × String) :=
  match p.tags.lookup tagName with
  | some (some v) => if pStrip v ≠ "" then dictInsert acc tagName (pStrip v) else acc
  | _ => acc

/-- The tag-building loop of `prepare_point`: starting from the implicit
`type` tag, fold `tagStep` over the category's tag whitelist. -/
def prepareTags (mc : MeasurementConfig) (p : RawPoint) : List (String × String) :=
  mc.tags.foldl (tagStep p) [("type", p.rtype)]

/-- The field-building part of `prepare_point`: a generic `value` field is
renamed via `type_field_mapping`, the other fields pass through (dict
overwrite), and `value = 1` is injected when nothing remains. -/
def prepareFields (p : RawPoint) : List (String × ℚ) :=
  let fields0 : List (String × ℚ) :=
    match p.fields.lookup "value" with
    | some v => [(field_name_for_type p.rtype, v)]
    | none => []
  let fields1 := (p.fields.filter (fun f => f.1 ≠ "value")).foldl
    (fun acc f => dictInsert acc f.1 f.2) fields0
  if fields1.isEmpty then [("value", 1)] else fields1

/-- `InfluxDBWriter.prepare_point`: resolve the category (falling back to
`"other"`), raise (`ValueError`) when that category has no measurement
configuration, otherwise build the wire point from the config's
measurement name, the whitelisted tags and the renamed fields. -/
def prepare_point (cfg : ConfigM) (p : RawPoint) : Except Unit PreparedPoint :=
  let category := get_measurement_category cfg p.rtype
  match get_measurement_config cfg category with
  | none => Except.error ()
  | some mc =>
    Except.ok
      { measurement := mc.measurement_name
        time := p.time
        tags := prepareTags mc p
        fields := prepareFields p }

/-- One step of the duplicate-filter/prepare loop of `write_points_batch`:
accumulator is (duplicates, errors, prepared points). -/
def prepStep (cfg : ConfigM) (cache : DupCache) (skip : Bool)
    (acc : ℕ × ℕ × List PreparedPoint) (p : RawPoint) : ℕ × ℕ × List PreparedPoint :=
  if skip ∧ is_duplicate cache p.measurement p.time then
    (acc.1 + 1, acc.2.1, acc.2.2)
  else
    match prepare_point cfg p with
    | Except.ok q => (acc.1, acc.2.1, acc.2.2 ++ [q])
    | Except.error _ => (acc.1, acc.2.1 + 1, acc.2.2)

/-- The retry loop of `_write_batch_with_retry`: `ok a` is the outcome of the
`client.write_points` call on attempt `a` (0-based); the result is the
returned success flag together with the list of back-off delays slept
(`retry_delay_base ** attempt`, slept only when another attempt remains).
`fuel` is the number of loop iterations remaining (`maxRetries` initially). -/
def retryGo (ok : ℕ → Bool) (base : ℚ) (maxRetries : ℕ) :
    ℕ → ℕ → Bool × List ℚ
  | _, 0 => (false, [])
  | attempt, fuel + 1 =>
    if ok attempt then (true, [])
    else if attempt < maxRetries - 1 then
      let r := retryGo ok base maxRetries (attempt + 1) fuel
      (r.1, base ^ attempt :: r.2)
    else (false, [])

/-- `InfluxDBWriter._write_batch_with_retry` (success flag and slept delays). -/
def write_batch_with_retry (ok : ℕ → Bool) (base : ℚ) (maxRetries : ℕ) :
    Bool × List ℚ :=
  retryGo ok base maxRetries 0 maxRetries

/-- Split the prepared points into consecutive batches of `batchSize`
(`for i in range(0, len(prepared_points), batch_size)`); `fuel` bounds the
recursion by the list length. -/
def chunksGo (batchSize : ℕ) : ℕ → List PreparedPoint → List (List PreparedPoint)
  | 0, _ => []
  | _, [] => []
  | fuel + 1, l => l.take batchSize :: chunksGo batchSize fuel (l.drop batchSize)

/-- The batch slicing of `write_points_batch`. -/
def chunks (batchSize : ℕ) (l : List PreparedPoint) : List (List PreparedPoint) :=
  chunksGo batchSize l.length l

/-- The batch-writing loop of `write_points_batch`: each batch (indexed from
`i`) adds its size to `written` on success and to `errors` on failure. -/
def writeBatchesGo (ok : ℕ → Bool) :
    ℕ → ℕ → ℕ → List (List PreparedPoint) → ℕ × ℕ
  | written, errors, _, [] => (written, errors)
  | written, errors, i, b :: bs =>
    if ok i then writeBatchesGo ok (written + b.length) errors (i + 1) bs
    else writeBatchesGo ok written (errors + b.length) (i + 1) bs

/-- Write-operation statistics returned by `write_points_batch`. -/
structure WriteStats where
  written : ℕ
  duplicates : ℕ
  errors : ℕ
deriving DecidableEq, Repr

/-- `InfluxDBWriter.write_points_batch`: on a nonempty input with duplicate
suppression enabled, load the existing-timestamp cache from the store, drop
duplicates, prepare the rest (a preparation failure counts as an error), and
write the prepared points in batches of `batchSize`, each batch retried via
`_write_batch_with_retry` (`clientOk i a` is the outcome of batch `i`'s
attempt `a`). -/
def write_points_batch (cfg : ConfigM) (q : StoreQuery) (clientOk : ℕ → ℕ → Bool)
    (ps : List RawPoint) (skip : Bool) : WriteStats :=
  if ps.isEmpty then ⟨0, 0, 0⟩
  else
    let cache := if skip then load_existing_data_cache q cfg.windowHours ps else []
    let acc := ps.foldl (prepStep cfg cache skip) (0, 0, [])
    let batches := chunks cfg.batchSize acc.2.2
    let we := writeBatchesGo
      (fun i => (write_batch_with_retry (clientOk i) cfg.retryDelayBase cfg.maxRetries).1)
      0 0 0 batches
    ⟨we.1, acc.1, acc.2.1 + we.2⟩

/-- Sum of the sizes of the batches (from index `i`) whose write succeeds
under the per-batch success predicate `f`. -/
def sumOk (f : ℕ → Bool) : ℕ → List (List PreparedPoint) → ℕ
  | _, [] => 0
  | i, b :: bs => (if f i then b.length else 0) + sumOk f (i + 1) bs

/-- Sum of the sizes of the batches (from index `i`) whose write fails. -/
def sumFail (f : ℕ → Bool) : ℕ → List (List PreparedPoint) → ℕ
  | _, [] => 0
  | i, b :: bs => (if f i then 0 else b.length) + sumFail f (i + 1) bs

/-- Total number of prepared points across a batch list. -/
def totalLen (bs : List (List PreparedPoint)) : ℕ :=
  (bs.map List.length).sum

/-! ## Record Parser (`health_data_parser.py`) -/

/-- The attributes of a `Record` XML element read by `parse_heart_rate`:
`record.get(attr)` yields `none` for an absent attribute. `metadata` lists
the `MetadataEntry` children as (key, value) pairs. -/
structure HRRecord where
  rtype : String
  value : Option String
  startDate : Option String
  device : Option String
  sourceName : Option String
  metadata : List (String × Option String)
deriving DecidableEq, Repr

/-- Python truthiness of `record.get(attr)`: present and non-empty. -/
def attrTruthy (o : Option String) : Bool :=
  match o with
  | some s => s ≠ ""
  | none => false

/-- `HealthDataParser.parse_datetime`: try the primary fixed-offset format
(`strptime`, modelled by `p1`); on failure try ISO-8601 after replacing `Z`
with `+00:00` (`fromisoformat`, modelled by `p2`); raise `ValueError`
(`Except.error`) when neither succeeds. The timezone conversion
(`astimezone`) does not change the instant. -/
def parse_datetime (p1 p2 : String → Option Int) (s : String) : Except Unit Int :=
  match p1 s with
  | some t => Except.ok t
  | none =>
    match p2 (s.replace "Z" "+00:00") with
    | some t => Except.ok t
    | none => Except.error ()

/-- The motion-context metadata loop of `parse_heart_rate`: each entry with
the motion-context key reassigns `motion_context = int(value)`; `int(None)`
raises `TypeError` and `int` of a non-numeric string raises `ValueError`
(`toI` models Python `int` on strings). -/
def motionStep (toI : String → Option Int) (acc : Except Unit (Option Int))
    (entry : String × Option String) : Except Unit (Option Int) :=
  match acc with
  | Except.error u => Except.error u
  | Except.ok cur =>
    if entry.1 = "HKMetadataKeyHeartRateMotionContext" then
      match entry.2 with
      | none => Except.error ()
      | some s =>
        match toI s with
        | none => Except.error ()
        | some n => Except.ok (some n)
    else Except.ok cur

/-- The full metadata scan of `parse_heart_rate`. -/
def motionContextOf (toI : String → Option Int) (entries : List (String × Option String)) :
    Except Unit (Option Int) :=
  entries.foldl (motionStep toI) (Except.ok none)

/-- The heart-rate point produced by `parse_heart_rate` (tag values may be
null exactly as in the Python dict). -/
structure HRPoint where
  measurement : String
  rtype : String
  time : Int
  value : ℚ
  tags : List (String × Option String)
deriving DecidableEq, Repr

/-- The body of `parse_heart_rate` with its exceptions made explicit:
`Except.error` is an exception reaching the method's `try`/`except` clause,
`Except.ok none` is an explicit `return None` (wrong type, missing
attributes, implausible value). `toF` models Python `float` on strings. -/
def parse_heart_rate_checked (p1 p2 : String → Option Int) (toF : String → Option ℚ)
    (toI : String → Option Int) (r : HRRecord) : Except Unit (Option HRPoint) :=
  if r.rtype ≠ "HKQuantityTypeIdentifierHeartRate" then Except.ok none
  else if ¬(attrTruthy r.value ∧ attrTruthy r.startDate) then Except.ok none
  else
    match toF (r.value.getD "") with
    | none => Except.error ()
    | some v =>
      if v ≤ 0 ∨ 400 < v then Except.ok none
      else
        match parse_datetime p1 p2 (r.startDate.getD "") with
        | Except.error u => Except.error u
        | Except.ok t =>
          match motionContextOf toI r.metadata with
          | Except.error u => Except.error u
          | Except.ok mc =>
            Except.ok (some
              { measurement := "heartrate_bpm"
                rtype := "HKQuantityTypeIdentifierHeartRate"
                time := t
                value := v
                tags := [("device", some (r.device.getD "")),
                         ("source", r.sourceName),
                         ("motion_context", mc.map toString)] })

/-- `HealthDataParser.parse_heart_rate`: the `except (ValueError, TypeError,
AttributeError)` clause catches every exception the body can raise —
including the `ValueError` from `parse_datetime` — and returns `None`. -/
def parse_heart_rate (p1 p2 : String → Option Int) (toF : String → Option ℚ)
    (toI : String → Option Int) (r : HRRecord) : Option HRPoint :=
  match parse_heart_rate_checked p1 p2 toF toI r with
  | Except.error _ => none
  | Except.ok o => o

/-! ## Streaming Processor (`streaming_processor.py`:
`process_file_streaming`) -/

/-- The state external to one streaming run: the store's contents, the
checkpoint document (`none` = no checkpoint file) and the import history.
These are exactly the things a dry run must leave untouched. -/
structure ExtState where
  store : Store
  checkpointDoc : Option (String × ℕ × List ℕ)
  history : LastTimestamps
  importedFiles : List (String × String)
deriving DecidableEq, Repr

/-- The per-element outcome of the classify/parse/validate block, abstracted
from the parser and validator: a record either yields a valid accepted point,
yields nothing (unmatched type, parse `None`, validation failure), or raises
(caught per element and counted as an error). -/
inductive ElemOutcome where
  | accepted (p : RawPoint)
  | skipped
  | failed
deriving DecidableEq, Repr

/-- The mutable state of the streaming loop. -/
structure LoopState where
  ext : ExtState
  batch : List RawPoint
  accepted : ℕ
  errors : ℕ
  written : ℕ
  duplicates : ℕ
  processed : ℕ
  lastCheckpoint : ℕ
deriving Repr

/-- The environment of one streaming run: the flush operation
(`process_batch` + write, returning the new store and the batch's
written/duplicates/errors), the checkpoint-save and tracker-update
operations, abstracted as functions on the external state. -/
structure RunEnv where
  flush : ExtState → List RawPoint → ExtState × (ℕ × ℕ × ℕ)
  saveCheckpoint : ExtState → ℕ → ExtState
  trackerUpdate : ExtState → ExtState
  clearCheckpoint : ExtState → ExtState

/-- One iteration of the streaming loop for one element: count the element's
outcome, flush the batch when it reaches `batchSize` (writes only when not in
preview; the batch list is cleared either way), and save a checkpoint when
the processed count has advanced past `checkpointInterval` (again only
writing when not in preview; `lastCheckpoint` advances either way). -/
def streamStep (env : RunEnv) (preview : Bool) (batchSize checkpointInterval : ℕ)
    (st : LoopState) (e : ElemOutcome) : LoopState :=
  let st :=
    match e with
    | ElemOutcome.accepted p =>
      { st with batch := st.batch ++ [p], accepted := st.accepted + 1,
                processed := st.processed + 1 }
    | ElemOutcome.skipped => { st with processed := st.processed + 1 }
    | ElemOutcome.failed =>
      { st with errors := st.errors + 1, processed := st.processed + 1 }
  let st :=
    if batchSize ≤ st.batch.length then
      if preview then { st with batch := [] }
      else
        let r := env.flush st.ext st.batch
        { st with ext := r.1, batch := [],
                  written := st.written + r.2.1,
                  duplicates := st.duplicates + r.2.2.1,
                  errors := st.errors + r.2.2.2 }
    else st
  if checkpointInterval ≤ st.processed - st.lastCheckpoint then
    if preview then { st with lastCheckpoint := st.processed }
    else
      { st with ext := env.saveCheckpoint st.ext st.processed,
                lastCheckpoint := st.processed }
  else st

/-- The streaming loop with the preview early exit: after each element, a
preview run that has accepted at least ~100 points breaks out. -/
def streamLoop (env : RunEnv) (preview : Bool) (batchSize checkpointInterval : ℕ) :
    List ElemOutcome → LoopState → LoopState
  | [], st => st
  | e :: es, st =>
    let st' := streamStep env preview batchSize checkpointInterval st e
    if preview ∧ 100 ≤ st'.accepted then st'
    else streamLoop env preview batchSize checkpointInterval es st'

/-- The completion block of `process_file_streaming`: not in preview, flush
any remaining partial batch, update the Import Tracker when at least one
point was written, and clear the checkpoint; in preview, do nothing. -/
def finishRun (env : RunEnv) (preview : Bool) (st : LoopState) : LoopState :=
  if preview then st
  else
    let st :=
      if st.batch.isEmpty then st
      else
        let r := env.flush st.ext st.batch
        { st with ext := r.1, batch := [],
                  written := st.written + r.2.1,
                  duplicates := st.duplicates + r.2.2.1,
                  errors := st.errors + r.2.2.2 }
    let st :=
      if 0 < st.written then { st with ext := env.trackerUpdate st.ext } else st
    { st with ext := env.clearCheckpoint st.ext }

/-- The streaming run over an element sequence (the resume decision and
element counting precede this and do not write to the external state). -/
def process_file_streaming (env : RunEnv) (preview : Bool)
    (batchSize checkpointInterval : ℕ) (elems : List ElemOutcome)
    (st : LoopState) : LoopState :=
  finishRun env preview (streamLoop env preview batchSize checkpointInterval elems st)

/-! ## Concrete instances used by the witnesses -/

/-- A concrete timestamp parser for witnesses (stands for
`datetime.fromisoformat` on the handful of strings that appear). -/
def wParse : String → Option Int := fun s =>
  if s = "5" then some 5 else if s = "10" then some 10 else none

/-- A witness import history: one prior import at instant 5. -/
def wHist : LastTimestamps := [("heartrate_bpm", some "5")]

/-- A witness point newer than the last import. -/
def wPoint : TrackPoint := { measurement := "heartrate_bpm", time := "10" }

/-- A primary-format parser that accepts nothing (for the C5 record, whose
timestamp matches neither format). -/
def cxParse1 : String → Option Int := fun _ => none

/-- An ISO-format parser that accepts nothing. -/
def cxParse2 : String → Option Int := fun _ => none

/-- Python `float` restricted to the strings a witness uses. -/
def cxToFloat : String → Option ℚ := fun s => if s = "72" then some 72 else none

/-- Python `int` on strings, for metadata values; accepts nothing here. -/
def cxToInt : String → Option Int := fun _ => none

/-- A heart-rate record with required attributes present and a timestamp no
format can parse. -/
def cxRecord : HRRecord :=
  { rtype := "HKQuantityTypeIdentifierHeartRate"
    value := some "72"
    startDate := some "not a timestamp"
    device := none
    sourceName := none
    metadata := [] }

/-- A witness configuration: the default `vitals` category, no `other`
category, small batches. -/
def cfgW : ConfigM :=
  { measurements :=
      [("vitals",
        { types := ["HKQuantityTypeIdentifierHeartRate"]
          measurement_name := "heartrate_bpm"
          tags := ["device", "source", "motion_context"] })]
    batchSize := 2
    windowHours := 24
    maxRetries := 3
    retryDelayBase := 2 }

/-- A witness heart-rate candidate point. -/
def pW : RawPoint :=
  { rtype := "HKQuantityTypeIdentifierHeartRate"
    measurement := "heartrate_bpm"
    time := 100
    fields := [("value", 72)]
    tags := [("device", some " watch "), ("source", some ""), ("motion_context", none)] }

/-- A second witness candidate point. -/
def pW2 : RawPoint :=
  { rtype := "HKQuantityTypeIdentifierHeartRate"
    measurement := "heartrate_bpm"
    time := 200
    fields := [("value", 80)]
    tags := [("device", some "watch")] }

/-- The prepared form of `pW` under `cfgW`: device tag stripped, empty
source tag and null motion-context tag dropped, `value` renamed. -/
def qW : PreparedPoint :=
  { measurement := "heartrate_bpm"
    time := 100
    tags := [("type", "HKQuantityTypeIdentifierHeartRate"), ("device", "watch")]
    fields := [("heart_rate", 72)] }

/-- A candidate point of a type no category recognizes. -/
def pUnknown : RawPoint :=
  { rtype := "HKQuantityTypeIdentifierIrrelevant"
    measurement := "other"
    time := 100
    fields := [("value", 1)]
    tags := [] }

/-- A witness store holding exactly the two witness points' (measurement,
timestamp) pairs, as after a first full import. -/
def storeW : Store := [("heartrate_bpm", 100), ("heartrate_bpm", 200)]

/-- A witness run environment whose operations visibly mutate the external
state, so that the preview frame property is not vacuous. -/
def envW : RunEnv :=
  { flush := fun s b => ({ s with store := s.store ++ b.map (fun p => (p.measurement, p.time)) },
      (b.length, 0, 0))
    saveCheckpoint := fun s n => { s with checkpointDoc := some ("hash", n, []) }
    trackerUpdate := fun s => { s with history := dictInsert s.history "heartrate_bpm" (some "x") }
    clearCheckpoint := fun s => { s with checkpointDoc := none } }

/-- A witness initial loop state. -/
def stW : LoopState :=
  { ext := { store := [], checkpointDoc := none, history := [], importedFiles := [] }
    batch := []
    accepted := 0
    errors := 0
    written := 0
    duplicates := 0
    processed := 0
    lastCheckpoint := 0 }

/-- A witness element sequence: one accepted point, one skipped element, one
per-element failure. -/
def elemsW : List ElemOutcome :=
  [ElemOutcome.accepted pW, ElemOutcome.skipped, ElemOutcome.failed]

/-! # Helper lemmas -/

/-- An entry of `dictInsert l k v` is the assigned entry or one of `l`. -/
theorem mem_dictInsert {β : Type} {l : List (String × β)} {k : String} {v : β}
    {kv : String × β} (hm : kv ∈ dictInsert l k v) : kv = (k, v) ∨ kv ∈ l := by
  unfold dictInsert at hm
  split at hm
  · rcases List.mem_map.mp hm with ⟨e, he, hkv⟩
    by_cases hek : e.1 = k
    · left; rw [← hkv]; simp [hek]
    · right; rw [← hkv]; simpa [hek] using he
  · rcases List.mem_append.mp hm with h | h
    · exact Or.inr h
    · left; simpa using h

/-- `dictInsert` never removes a key. -/
theorem dictInsert_key_mem {β : Type} {l : List (String × β)} {k0 : String}
    (h : ∃ v0, (k0, v0) ∈ l) (k : String) (v : β) :
    ∃ v1, (k0, v1) ∈ dictInsert l k v := by
  rcases h with ⟨v0, hv0⟩
  unfold dictInsert
  split
  · by_cases hk : k0 = k
    · subst hk
      exact ⟨v, List.mem_map.mpr ⟨(k0, v0), hv0, by simp⟩⟩
    · exact ⟨v0, List.mem_map.mpr ⟨(k0, v0), hv0, by simp [hk]⟩⟩
  · exact ⟨v0, List.mem_append.mpr (Or.inl hv0)⟩

/-- The motion-context checks only produce their two context findings. -/
theorem hrTypical_not_mem_motion (value : ℚ) (ctx : Option String) :
    Finding.hrTypical ∉ motionContextWarnings value ctx := by
  unfold motionContextWarnings
  rcases ctx with _ | motion
  · simp
  · by_cases h0 : motion = "0" <;> by_cases h2 : motion = "2" <;>
      simp [h0, h2]

/-! # Claims -/

/-- C2 counterexample: in the configuration-driven validator's
`validate_heart_rate` (`validation/validator.py`), with rules defining both
the hard range [30, 250] and the typical range [40, 200], the value 39 —
inside the hard range, one unit below the typical minimum — produces zero
errors AND zero warnings: the `elif` on key presence means the typical-range
branch is never evaluated when `min`/`max` are present, contradicting the
claimed "exactly one warning". -/
theorem validate_heart_rate_cfg_no_typical_warning :
    (30 : ℚ) ≤ 39 ∧ (39 : ℚ) ≤ 250 ∧ (39 : ℚ) < 40 ∧
    validate_heart_rate_cfg (some hrRulesBoth) 39 none =
      { is_valid := true, errors := [], warnings := [] } ∧
    ¬((validate_heart_rate_cfg (some hrRulesBoth) 39 none).warnings.length = 1) := by
  refine ⟨by norm_num, by norm_num, by norm_num, by decide, by decide⟩

/-- C2 (amended): in the legacy validator (`data_validator.py`), a heart
rate of exactly the configured minimum 30 is valid with no findings; 29 is a
hard error (exactly one error, no warning); 120 — the midpoint of the
typical range — yields no finding; 39 — inside the hard range, one unit
outside the typical range — yields exactly one warning and zero errors; and
the hard-range error and the typical-range warning are mutually exclusive
for every value. In the configuration-driven generic field validation
(`_validate_field_with_rules`), any hard-range error suppresses the
typical-range warning for that field. (The package validator's own
`validate_heart_rate` does not have this behaviour — see the
counterexample.) -/
theorem validate_heart_rate_boundaries :
    (validate_heart_rate_legacy 30 none).is_valid = true ∧
    (validate_heart_rate_legacy 30 none).errors = [] ∧
    (validate_heart_rate_legacy 29 none).is_valid = false ∧
    (validate_heart_rate_legacy 29 none).errors = [Finding.hrRange] ∧
    (validate_heart_rate_legacy 29 none).warnings = [] ∧
    validate_heart_rate_legacy 120 none =
      { is_valid := true, errors := [], warnings := [] } ∧
    (validate_heart_rate_legacy 39 none).errors = [] ∧
    (validate_heart_rate_legacy 39 none).warnings = [Finding.hrTypical] ∧
    (∀ (v : ℚ) (ctx : Option String),
      ¬(Finding.hrRange ∈ (validate_heart_rate_legacy v ctx).errors ∧
        Finding.hrTypical ∈ (validate_heart_rate_legacy v ctx).warnings)) ∧
    (∀ (v : ℚ) (field : String) (r : Rules),
      (validate_field_with_rules v field r).errors ≠ [] →
      (validate_field_with_rules v field r).warnings = []) := by
  refine ⟨by decide, by decide, by decide, by decide, by decide, by decide, by decide,
    by decide, ?_, ?_⟩
  · intro v ctx h
    rcases h with ⟨hr, ht⟩
    by_cases hc : v < 30 ∨ 250 < v
    · have hw : (validate_heart_rate_legacy v ctx).warnings = motionContextWarnings v ctx := by
        have h1 : ¬(¬(v < 30 ∨ 250 < v) ∧ (v < 40 ∨ 200 < v)) := fun hcon => hcon.1 hc
        unfold validate_heart_rate_legacy
        dsimp only
        rw [if_neg h1, List.nil_append]
      rw [hw] at ht
      exact hrTypical_not_mem_motion v ctx ht
    · have he : (validate_heart_rate_legacy v ctx).errors = [] := by
        unfold validate_heart_rate_legacy
        dsimp only
        rw [if_neg hc]
      rw [he] at hr
      simp at hr
  · intro v field r hne
    unfold validate_field_with_rules at hne ⊢
    rcases hmin : r.min with _ | lo <;> rcases hmax : r.max with _ | hi <;>
      rcases htl : r.typical_min with _ | tlo <;> rcases hth : r.typical_max with _ | thi <;>
      simp only [hmin, hmax, htl, hth] at hne ⊢ <;>
      try simp at hne
    all_goals
      by_cases hc : v < lo ∨ hi < v
    all_goals simp_all [hc]

/-- C2 witness: the mutually-exclusive branches at concrete inputs — a value
below the hard minimum produces the error and suppresses the typical warning
in both the generic field validation and the legacy validator. -/
theorem validate_heart_rate_boundaries_witness :
    (validate_field_with_rules 29 "value" hrRulesBoth).warnings = [] ∧
    ¬(Finding.hrRange ∈ (validate_heart_rate_legacy 29 none).errors ∧
      Finding.hrTypical ∈ (validate_heart_rate_legacy 29 none).warnings) :=
  ⟨validate_heart_rate_boundaries.2.2.2.2.2.2.2.2.2 29 "value" hrRulesBoth (by decide),
   validate_heart_rate_boundaries.2.2.2.2.2.2.2.2.1 29 none⟩

/-- Looking up a key of a key-indexed map yields its image. -/
theorem lookup_map_pair (f : String → List Int) :
    ∀ (l : List String) (m : String), m ∈ l →
      (l.map (fun x => (x, f x))).lookup m = some (f m) := by
  intro l
  induction l with
  | nil => intro m hm; simp at hm
  | cons x xs ih =>
    intro m hm
    by_cases hx : m = x
    · subst hx; simp [List.lookup]
    · have hmem : m ∈ xs := by
        rcases List.mem_cons.mp hm with h | h
        · exact absurd h hx
        · exact h
      have hbx : (m == x) = false := by simp [hx]
      simpa [List.lookup, hbx] using ih m hmem

/-- A lookup in a map whose values are all `[]` yields `[]`. -/
theorem lookup_all_nil :
    ∀ (l : DupCache), (∀ e ∈ l, e.2 = ([] : List Int)) →
      ∀ (m : String) (ts : List Int), l.lookup m = some ts → ts = [] := by
  intro l
  induction l with
  | nil => intro _ m ts h; simp [List.lookup] at h
  | cons e es ih =>
    intro hall m ts h
    rcases e with ⟨k, v⟩
    by_cases hk : m = k
    · subst hk
      simp [List.lookup] at h
      rw [← h]
      exact hall (m, v) (List.mem_cons_self _ _)
    · have hbk : (m == k) = false := by simp [hk]
      simp [List.lookup, hbk] at h
      exact ih (fun e he => hall e (List.mem_cons_of_mem _ he)) m ts h

/-- C3: in incremental mode, a point whose measurement is configured and
whose timestamp parses is in the filtered batch iff it is in the input batch
and its time is strictly after the measurement's recorded last-import time;
when no last-import time is recorded it is unconditionally kept
(`should_import_record` / `process_batch`). -/
theorem incremental_filter_monotonic (parse : String → Option Int)
    (h : LastTimestamps) (names : List String) (ps : List TrackPoint)
    (p : TrackPoint) (rt : Int)
    (hm : p.measurement ∈ names) (hrt : parse p.time = some rt) :
    (∀ li : Int, get_last_import_time parse h p.measurement = some li →
      (p ∈ incremental_filter parse h names ps ↔ p ∈ ps ∧ li < rt)) ∧
    (get_last_import_time parse h p.measurement = none →
      (p ∈ incremental_filter parse h names ps ↔ p ∈ ps)) := by
  have hc : names.contains p.measurement = true := by
    simpa using hm
  constructor
  · intro li hli
    have hs : should_import_record parse h p.time p.measurement = decide (li < rt) := by
      unfold should_import_record
      rw [hrt]
      dsimp only
      rw [hli]
    simp [incremental_filter, List.mem_filter, hm, hs]
  · intro hnone
    have hs : should_import_record parse h p.time p.measurement = true := by
      unfold should_import_record
      rw [hrt]
      dsimp only
      rw [hnone]
    simp [incremental_filter, List.mem_filter, hm, hs]

/-- C3 witness: with a recorded last import at instant 5, a configured point
at instant 10 passes the incremental filter. -/
theorem incremental_filter_monotonic_witness :
    wPoint ∈ incremental_filter wParse wHist ["heartrate_bpm"] [wPoint] ∧
    (5 : Int) < 10 :=
  ⟨((incremental_filter_monotonic wParse wHist ["heartrate_bpm"] [wPoint] wPoint 10
      (by decide) (by decide)).1 5 (by decide)).mpr ⟨by decide, by decide⟩,
   by decide⟩

/-- C10: the incremental filter fails open — an unparseable record timestamp
imports the record; an unparseable (or missing) stored last-import timestamp
makes `get_last_import_time` return `None`, which also imports the record. -/
theorem should_import_record_fail_open (parse : String → Option Int)
    (h : LastTimestamps) (t m : String) :
    (parse t = none → should_import_record parse h t m = true) ∧
    (∀ s, lastTimestampStr h m = some s → s ≠ "" → parse s = none →
      get_last_import_time parse h m = none) ∧
    (get_last_import_time parse h m = none → should_import_record parse h t m = true) := by
  refine ⟨?_, ?_, ?_⟩
  · intro hp
    unfold should_import_record
    rw [hp]
  · intro s hs hne hp
    unfold get_last_import_time
    rw [hs]
    dsimp only
    rw [if_neg hne, hp]
  · intro hg
    unfold should_import_record
    cases hp : parse t with
    | none => rfl
    | some rt =>
      dsimp only
      rw [hg]

/-- C10 witness: with an unparseable stored timestamp the last-import time is
`None` and a parseable record is imported; an unparseable record timestamp is
also imported. -/
theorem should_import_record_fail_open_witness :
    get_last_import_time wParse [("heartrate_bpm", some "junk")] "heartrate_bpm" = none ∧
    should_import_record wParse [("heartrate_bpm", some "junk")] "10" "heartrate_bpm" = true ∧
    should_import_record wParse wHist "junk2" "heartrate_bpm" = true := by
  refine ⟨?_, ?_, ?_⟩
  · exact (should_import_record_fail_open wParse
      [("heartrate_bpm", some "junk")] "10" "heartrate_bpm").2.1 "junk" rfl (by decide) (by decide)
  · exact (should_import_record_fail_open wParse
      [("heartrate_bpm", some "junk")] "10" "heartrate_bpm").2.2
      ((should_import_record_fail_open wParse
        [("heartrate_bpm", some "junk")] "10" "heartrate_bpm").2.1 "junk" rfl (by decide) (by decide))
  · exact (should_import_record_fail_open wParse wHist "junk2" "heartrate_bpm").1 (by decide)

/-- C6: a candidate is classified a duplicate iff the loaded cache has an
entry for its measurement containing its exact timestamp; a failing store
query yields the empty set (fail-open), so a cache loaded entirely from
failing queries never classifies any candidate as a duplicate. -/
theorem is_duplicate_iff_and_fail_open :
    (∀ (cache : DupCache) (m : String) (t : Int),
      is_duplicate cache m t = true ↔ ∃ ts, cache.lookup m = some ts ∧ t ∈ ts) ∧
    (∀ (q : StoreQuery) (m : String) (lo hi : Int),
      q m lo hi = Except.error () → check_for_duplicates q m lo hi = []) ∧
    (∀ (q : StoreQuery), (∀ m lo hi, q m lo hi = Except.error ()) →
      ∀ (w : ℕ) (ps : List RawPoint) (m : String) (t : Int),
        is_duplicate (load_existing_data_cache q w ps) m t = false) := by
  refine ⟨?_, ?_, ?_⟩
  · intro cache m t
    unfold is_duplicate
    cases hl : cache.lookup m with
    | none => simp [hl]
    | some ts => simp [hl, List.contains]
  · intro q m lo hi hq
    unfold check_for_duplicates
    rw [hq]
  · intro q hq w ps m t
    have hnil : ∀ e ∈ load_existing_data_cache q w ps, e.2 = ([] : List Int) := by
      intro e he
      unfold load_existing_data_cache at he
      rcases List.mem_map.mp he with ⟨m', _, hme⟩
      rw [← hme]
      dsimp only
      unfold check_for_duplicates
      rw [hq]
    unfold is_duplicate
    cases hl : (load_existing_data_cache q w ps).lookup m with
    | none => rfl
    | some ts =>
      have := lookup_all_nil (load_existing_data_cache q w ps) hnil m ts hl
      subst this
      rfl

/-- C6 witness: with a cache entry for the witness measurement, the first
candidate (timestamp present) is a duplicate; under an always-failing store
query, no candidate is a duplicate. -/
theorem is_duplicate_iff_and_fail_open_witness :
    is_duplicate [("heartrate_bpm", [100, 200])] "heartrate_bpm" 100 = true ∧
    check_for_duplicates (fun _ _ _ => Except.error ()) "heartrate_bpm" 0 1000 = [] ∧
    is_duplicate
      (load_existing_data_cache (fun _ _ _ => Except.error ()) 24 [pW]) "heartrate_bpm" 100 =
      false := by
  refine ⟨?_, ?_, ?_⟩
  · exact (is_duplicate_iff_and_fail_open.1 [("heartrate_bpm", [100, 200])] "heartrate_bpm"
      100).mpr ⟨[100, 200], by decide, by decide⟩
  · exact is_duplicate_iff_and_fail_open.2.1 (fun _ _ _ => Except.error ())
      "heartrate_bpm" 0 1000 rfl
  · exact is_duplicate_iff_and_fail_open.2.2 (fun _ _ _ => Except.error ())
      (fun _ _ _ => rfl) 24 [pW] "heartrate_bpm" 100

/-- C4: on normal completion with at least one written point, the streaming
processor hands `update_last_timestamps` the output of
`_create_data_points_for_tracker` — which is always empty buckets — so the
tracker's `last_timestamps` document is left completely unchanged, for every
prior history. -/
theorem update_last_timestamps_after_streaming_is_noop (h : LastTimestamps) :
    update_last_timestamps h create_data_points_for_tracker = h := rfl

/-- C5 counterexample: a heart-rate record with all required attributes and a
timestamp neither format can parse makes `parse_datetime` raise
(`Except.error`), the exception propagates inside `parse_heart_rate`'s `try`
block — and the method's own `except (ValueError, TypeError,
AttributeError)` clause catches it, returning `None` instead of raising. -/
theorem parse_heart_rate_swallows_timestamp_error :
    parse_datetime cxParse1 cxParse2 "not a timestamp" = Except.error () ∧
    parse_heart_rate_checked cxParse1 cxParse2 cxToFloat cxToInt cxRecord = Except.error () ∧
    parse_heart_rate cxParse1 cxParse2 cxToFloat cxToInt cxRecord = none :=
  ⟨rfl, rfl, rfl⟩

/-- C5 (amended): `parse_datetime` raises iff the string parses under
neither the primary fixed-offset format nor the Z-normalized ISO format; the
heart-rate parser itself never propagates an exception — every internal
exception (including an unparseable timestamp) and every explicit rejection
(missing attributes, implausible value) yields `None`. -/
theorem parse_heart_rate_error_handling (p1 p2 : String → Option Int)
    (toF : String → Option ℚ) (toI : String → Option Int) (r : HRRecord) :
    (∀ s, parse_datetime p1 p2 s = Except.error () ↔
      p1 s = none ∧ p2 (s.replace "Z" "+00:00") = none) ∧
    (∀ u, parse_heart_rate_checked p1 p2 toF toI r = Except.error u →
      parse_heart_rate p1 p2 toF toI r = none) ∧
    (¬(attrTruthy r.value = true ∧ attrTruthy r.startDate = true) →
      parse_heart_rate p1 p2 toF toI r = none) ∧
    (∀ v : ℚ, toF (r.value.getD "") = some v → (v ≤ 0 ∨ 400 < v) →
      parse_heart_rate p1 p2 toF toI r = none) ∧
    (p1 (r.startDate.getD "") = none →
      p2 ((r.startDate.getD "").replace "Z" "+00:00") = none →
      parse_heart_rate p1 p2 toF toI r = none) := by
  refine ⟨?_, ?_, ?_, ?_, ?_⟩
  · intro s
    unfold parse_datetime
    rcases hp1 : p1 s with _ | t <;>
      rcases hp2 : p2 (s.replace "Z" "+00:00") with _ | t2 <;> simp
  · intro u h
    unfold parse_heart_rate
    rw [h]
  · intro hattr
    unfold parse_heart_rate parse_heart_rate_checked
    by_cases hty : r.rtype ≠ "HKQuantityTypeIdentifierHeartRate"
    · simp [hty]
    · simp [hty, hattr]
  · intro v hv himp
    unfold parse_heart_rate parse_heart_rate_checked
    by_cases hty : r.rtype ≠ "HKQuantityTypeIdentifierHeartRate"
    · simp [hty]
    · by_cases hattr : attrTruthy r.value = true ∧ attrTruthy r.startDate = true
      · simp [hty, hattr, hv, himp]
      · simp [hty, hattr]
  · intro hp1 hp2
    have hdt : parse_datetime p1 p2 (r.startDate.getD "") = Except.error () := by
      unfold parse_datetime
      rw [hp1]
      dsimp only
      rw [hp2]
    unfold parse_heart_rate parse_heart_rate_checked
    by_cases hty : r.rtype ≠ "HKQuantityTypeIdentifierHeartRate"
    · simp [hty]
    · by_cases hattr : attrTruthy r.value = true ∧ attrTruthy r.startDate = true
      · rcases htf : toF (r.value.getD "") with _ | v
        · simp [hty, hattr, htf]
        · by_cases himp : v ≤ 0 ∨ 400 < v
          · simp [hty, hattr, htf, himp]
          · simp [hty, hattr, htf, himp, hdt]
      · simp [hty, hattr]

/-- C5 witness: the amended behaviour at the concrete record — the timestamp
parses under neither format and the parser returns `None`. -/
theorem parse_heart_rate_error_handling_witness :
    parse_datetime cxParse1 cxParse2 "not a timestamp" = Except.error () ∧
    parse_heart_rate cxParse1 cxParse2 cxToFloat cxToInt cxRecord = none := by
  constructor
  · exact ((parse_heart_rate_error_handling cxParse1 cxParse2 cxToFloat cxToInt
      cxRecord).1 "not a timestamp").mpr ⟨rfl, rfl⟩
  · exact (parse_heart_rate_error_handling cxParse1 cxParse2 cxToFloat cxToInt
      cxRecord).2.2.2.2 rfl rfl

/-- The tag fold of `prepare_point` preserves any pointwise property that
holds of the seed entries and of every entry it can insert. -/
theorem prepareTags_invariant (p : RawPoint) (P : String × String → Prop) :
    ∀ (tl : List String) (acc : List (String × String)),
      (∀ tagName ∈ tl, ∀ v : String, pStrip v ≠ "" → P (tagName, pStrip v)) →
      (∀ kv ∈ acc, P kv) → ∀ kv ∈ tl.foldl (tagStep p) acc, P kv := by
  intro tl
  induction tl with
  | nil => intro acc _ hacc kv hkv; exact hacc kv hkv
  | cons t ts ih =>
    intro acc htl hacc kv hkv
    simp only [List.foldl_cons] at hkv
    refine ih (tagStep p acc t) (fun n hn v hv => htl n (List.mem_cons_of_mem _ hn) v hv)
      ?_ kv hkv
    intro kv' hkv'
    unfold tagStep at hkv'
    rcases hl : p.tags.lookup t with _ | ov
    · simp only [hl] at hkv'; exact hacc kv' hkv'
    · rcases ov with _ | v
      · simp only [hl] at hkv'; exact hacc kv' hkv'
      · simp only [hl] at hkv'
        by_cases hv : pStrip v ≠ ""
        · rw [if_pos hv] at hkv'
          rcases mem_dictInsert hkv' with h | h
          · rw [h]; exact htl t (List.mem_cons_self _ _) v hv
          · exact hacc kv' h
        · rw [if_neg hv] at hkv'; exact hacc kv' hkv'

/-- The tag fold of `prepare_point` never removes the `type` key. -/
theorem prepareTags_type_key (p : RawPoint) :
    ∀ (tl : List String) (acc : List (String × String)),
      (∃ v, ("type", v) ∈ acc) →
      ∃ v, ("type", v) ∈ tl.foldl (tagStep p) acc := by
  intro tl
  induction tl with
  | nil => intro acc h; exact h
  | cons t ts ih =>
    intro acc h
    simp only [List.foldl_cons]
    refine ih (tagStep p acc t) ?_
    unfold tagStep
    rcases hl : p.tags.lookup t with _ | ov
    · exact h
    · rcases ov with _ | v
      · exact h
      · dsimp only
        by_cases hv : pStrip v ≠ ""
        · rw [if_pos hv]; exact dictInsert_key_mem h t (pStrip v)
        · rw [if_neg hv]; exact h

/-- The field map built by `prepare_point` is never empty. -/
theorem prepareFields_ne_nil (p : RawPoint) : prepareFields p ≠ [] := by
  unfold prepareFields
  dsimp only
  split
  · simp
  · rename_i hne
    simpa [List.isEmpty_iff] using hne

/-- C8: point preparation raises when the point's type resolves to no
configured category (falling through to the unconfigured `"other"` bucket);
on success the prepared point takes the category's configured measurement
name, its tag keys are the implicit `type` key plus a subset of the
category's whitelist, the `type` tag is always present, no tag carries an
empty value (the type's own string being nonempty), and at least one field
is present. -/
theorem prepare_point_invariants (cfg : ConfigM) (p : RawPoint) :
    ((find_measurement_category cfg p.rtype = none ∧
      get_measurement_config cfg "other" = none) →
      prepare_point cfg p = Except.error ()) ∧
    (∀ q, prepare_point cfg p = Except.ok q →
      ∃ mc, get_measurement_config cfg (get_measurement_category cfg p.rtype) = some mc ∧
        q.measurement = mc.measurement_name ∧
        (∀ kv ∈ q.tags, kv.1 = "type" ∨ kv.1 ∈ mc.tags) ∧
        (∃ v, ("type", v) ∈ q.tags) ∧
        (p.rtype ≠ "" → ∀ kv ∈ q.tags, kv.2 ≠ "") ∧
        q.fields ≠ []) := by
  constructor
  · intro h
    rcases h with ⟨hf, ho⟩
    have hcat : get_measurement_category cfg p.rtype = "other" := by
      unfold get_measurement_category
      rw [hf]
      rfl
    unfold prepare_point
    rw [hcat]
    dsimp only
    rw [ho]
  · intro q hq
    unfold prepare_point at hq
    dsimp only at hq
    rcases hmc : get_measurement_config cfg (get_measurement_category cfg p.rtype)
      with _ | mc
    · rw [hmc] at hq; exact absurd hq (by simp)
    · rw [hmc] at hq
      dsimp only at hq
      injection hq with hq'
      subst hq'
      refine ⟨mc, rfl, rfl, ?_, ?_, ?_, prepareFields_ne_nil p⟩
      · exact prepareTags_invariant p (fun kv => kv.1 = "type" ∨ kv.1 ∈ mc.tags)
          mc.tags [("type", p.rtype)]
          (fun tagName htn v _ => Or.inr htn)
          (by intro kv hkv; simp at hkv; rw [hkv]; exact Or.inl rfl)
      · exact prepareTags_type_key p mc.tags [("type", p.rtype)] ⟨p.rtype, by simp⟩
      · intro hty
        exact prepareTags_invariant p (fun kv => kv.2 ≠ "")
          mc.tags [("type", p.rtype)]
          (fun tagName _ v hv => hv)
          (by intro kv hkv; simp at hkv; rw [hkv]; exact hty)

/-- C8 witness: with the default-style configuration (no `other` category), a
point of an unrecognized type makes preparation raise; the recognized witness
point prepares successfully with all the invariants. -/
theorem prepare_point_invariants_witness :
    prepare_point cfgW pUnknown = Except.error () ∧
    (∃ mc, get_measurement_config cfgW (get_measurement_category cfgW pW.rtype) = some mc ∧
      qW.measurement = mc.measurement_name ∧
      (∀ kv ∈ qW.tags, kv.1 = "type" ∨ kv.1 ∈ mc.tags) ∧
      (∃ v, ("type", v) ∈ qW.tags) ∧
      (pW.rtype ≠ "" → ∀ kv ∈ qW.tags, kv.2 ≠ "") ∧
      qW.fields ≠ []) := by
  constructor
  · exact (prepare_point_invariants cfgW pUnknown).1 ⟨by decide, by decide⟩
  · exact (prepare_point_invariants cfgW pW).2 qW rfl

/-- The retry loop succeeds iff some attempt in range succeeds. -/
theorem retryGo_success_iff (ok : ℕ → Bool) (base : ℚ) (maxR : ℕ) :
    ∀ (fuel attempt : ℕ), attempt + fuel = maxR →
      ((retryGo ok base maxR attempt fuel).1 = true ↔
        ∃ a, attempt ≤ a ∧ a < maxR ∧ ok a = true) := by
  intro fuel
  induction fuel with
  | zero =>
    intro attempt h
    unfold retryGo
    constructor
    · intro hf; exact absurd hf (by simp)
    · rintro ⟨a, h1, h2, _⟩; exact absurd h2 (by omega)
  | succ n ih =>
    intro attempt h
    unfold retryGo
    by_cases hok : ok attempt = true
    · rw [if_pos hok]
      constructor
      · intro _; exact ⟨attempt, le_refl _, by omega, hok⟩
      · intro _; rfl
    · rw [if_neg hok]
      by_cases hlt : attempt < maxR - 1
      · rw [if_pos hlt]
        dsimp only
        rw [ih (attempt + 1) (by omega)]
        constructor
        · rintro ⟨a, h1, h2, h3⟩; exact ⟨a, by omega, h2, h3⟩
        · rintro ⟨a, h1, h2, h3⟩
          refine ⟨a, ?_, h2, h3⟩
          rcases Nat.eq_or_lt_of_le h1 with he | hl
          · exact absurd (he ▸ h3) hok
          · omega
      · rw [if_neg hlt]
        constructor
        · intro hf; exact absurd hf (by simp)
        · rintro ⟨a, h1, h2, h3⟩
          have ha : a = attempt := by omega
          exact absurd (ha ▸ h3) hok

/-- When every attempt fails, the retry loop sleeps
`base ^ attempt` for each attempt except the last. -/
theorem retryGo_delays_all_fail (ok : ℕ → Bool) (base : ℚ) (maxR : ℕ)
    (hfail : ∀ a, a < maxR → ok a = false) :
    ∀ (fuel attempt : ℕ), attempt + fuel = maxR →
      (retryGo ok base maxR attempt fuel).2 =
        (List.range (maxR - 1 - attempt)).map (fun k => base ^ (attempt + k)) := by
  intro fuel
  induction fuel with
  | zero =>
    intro attempt h
    unfold retryGo
    have h0 : maxR - 1 - attempt = 0 := by omega
    rw [h0]
    simp
  | succ n ih =>
    intro attempt h
    have hok : ok attempt = false := hfail attempt (by omega)
    unfold retryGo
    rw [if_neg (by simp [hok])]
    by_cases hlt : attempt < maxR - 1
    · rw [if_pos hlt]
      dsimp only
      rw [ih (attempt + 1) (by omega)]
      have hr : maxR - 1 - attempt = (maxR - 1 - (attempt + 1)) + 1 := by omega
      rw [hr, List.range_succ_eq_map]
      simp only [List.map_cons, List.map_map]
      refine List.cons_eq_cons.mpr ⟨by rw [Nat.add_zero], ?_⟩
      apply List.map_congr_left
      intro k _
      show base ^ (attempt + 1 + k) = base ^ (attempt + Nat.succ k)
      congr 1
      omega
    · rw [if_neg hlt]
      have h0 : maxR - 1 - attempt = 0 := by omega
      rw [h0]
      simp

/-- The batch loop splits written/errors into the per-batch sums. -/
theorem writeBatchesGo_eq (f : ℕ → Bool) :
    ∀ (bs : List (List PreparedPoint)) (w e i : ℕ),
      writeBatchesGo f w e i bs = (w + sumOk f i bs, e + sumFail f i bs) := by
  intro bs
  induction bs with
  | nil => intro w e i; simp [writeBatchesGo, sumOk, sumFail]
  | cons b rest ih =>
    intro w e i
    by_cases hf : f i = true <;>
      simp [writeBatchesGo, sumOk, sumFail, hf, ih, Prod.ext_iff] <;> omega

/-- The per-batch sums over a concatenation. -/
theorem sumOk_append (f : ℕ → Bool) :
    ∀ (xs ys : List (List PreparedPoint)) (i : ℕ),
      sumOk f i (xs ++ ys) = sumOk f i xs + sumOk f (i + xs.length) ys := by
  intro xs
  induction xs with
  | nil => intro ys i; simp [sumOk]
  | cons b rest ih =>
    intro ys i
    simp only [List.cons_append, sumOk, List.length_cons]
    have hap : rest.append ys = rest ++ ys := rfl
    rw [hap, ih ys (i + 1)]
    have hidx : i + 1 + rest.length = i + (rest.length + 1) := by omega
    rw [hidx]
    ring

/-- `sumFail` over a concatenation. -/
theorem sumFail_append (f : ℕ → Bool) :
    ∀ (xs ys : List (List PreparedPoint)) (i : ℕ),
      sumFail f i (xs ++ ys) = sumFail f i xs + sumFail f (i + xs.length) ys := by
  intro xs
  induction xs with
  | nil => intro ys i; simp [sumFail]
  | cons b rest ih =>
    intro ys i
    simp only [List.cons_append, sumFail, List.length_cons]
    have hap : rest.append ys = rest ++ ys := rfl
    rw [hap, ih ys (i + 1)]
    have hidx : i + 1 + rest.length = i + (rest.length + 1) := by omega
    rw [hidx]
    ring

/-- If every index in range succeeds the whole span is written. -/
theorem sumOk_all_true (f : ℕ → Bool) :
    ∀ (bs : List (List PreparedPoint)) (i : ℕ),
      (∀ k, i ≤ k → k < i + bs.length → f k = true) →
      sumOk f i bs = totalLen bs := by
  intro bs
  induction bs with
  | nil => intro i _; simp [sumOk, totalLen]
  | cons b rest ih =>
    intro i hall
    have hfi : f i = true := hall i (le_refl _) (by simp)
    simp only [sumOk, totalLen, List.map_cons, List.sum_cons, hfi, if_true]
    rw [ih (i + 1) (fun k h1 h2 => hall k (by omega) (by simp at h2 ⊢; omega))]
    rfl

/-- If every index in range succeeds nothing is counted failed. -/
theorem sumFail_all_true (f : ℕ → Bool) :
    ∀ (bs : List (List PreparedPoint)) (i : ℕ),
      (∀ k, i ≤ k → k < i + bs.length → f k = true) →
      sumFail f i bs = 0 := by
  intro bs
  induction bs with
  | nil => intro i _; simp [sumFail]
  | cons b rest ih =>
    intro i hall
    have hfi : f i = true := hall i (le_refl _) (by simp)
    simp only [sumFail, hfi, if_true]
    rw [ih (i + 1) (fun k h1 h2 => hall k (by omega) (by simp at h2 ⊢; omega))]

/-- The per-batch sums partition the total. -/
theorem sumOk_add_sumFail (f : ℕ → Bool) :
    ∀ (bs : List (List PreparedPoint)) (i : ℕ),
      sumOk f i bs + sumFail f i bs = totalLen bs := by
  intro bs
  induction bs with
  | nil => intro i; simp [sumOk, sumFail, totalLen]
  | cons b rest ih =>
    intro i
    have := ih (i + 1)
    simp only [sumOk, sumFail, totalLen, List.map_cons, List.sum_cons] at this ⊢
    by_cases hf : f i = true <;> simp [hf] <;> omega

/-- C7: the batch write succeeds iff one of the `max_retries` attempts
succeeds; a batch that fails every attempt slept exactly
`retry_delay_base ** attempt` seconds after each non-final attempt; the
batch loop credits every successful batch's size to `written` and every
exhausted batch's size to `errors`, partitioning the total — so a single
failed batch contributes exactly its own size to `errors` while all other
batches report their `written` counts. -/
theorem batch_retry_and_isolation :
    (∀ (ok : ℕ → Bool) (base : ℚ) (maxR : ℕ),
      ((write_batch_with_retry ok base maxR).1 = true ↔
        ∃ a, a < maxR ∧ ok a = true)) ∧
    (∀ (ok : ℕ → Bool) (base : ℚ) (maxR : ℕ),
      (∀ a, a < maxR → ok a = false) →
      (write_batch_with_retry ok base maxR).2 =
        (List.range (maxR - 1)).map (fun a => base ^ a)) ∧
    (∀ (f : ℕ → Bool) (bs : List (List PreparedPoint)),
      writeBatchesGo f 0 0 0 bs = (sumOk f 0 bs, sumFail f 0 bs) ∧
      sumOk f 0 bs + sumFail f 0 bs = totalLen bs) ∧
    (∀ (f : ℕ → Bool) (pre post : List (List PreparedPoint)) (bj : List PreparedPoint),
      (∀ i, f i = false ↔ i = pre.length) →
      writeBatchesGo f 0 0 0 (pre ++ bj :: post) =
        (totalLen pre + totalLen post, bj.length)) := by
  refine ⟨?_, ?_, ?_, ?_⟩
  · intro ok base maxR
    unfold write_batch_with_retry
    rw [retryGo_success_iff ok base maxR maxR 0 (by omega)]
    constructor
    · rintro ⟨a, _, h2, h3⟩; exact ⟨a, h2, h3⟩
    · rintro ⟨a, h2, h3⟩; exact ⟨a, Nat.zero_le _, h2, h3⟩
  · intro ok base maxR hfail
    unfold write_batch_with_retry
    rw [retryGo_delays_all_fail ok base maxR hfail maxR 0 (by omega)]
    simp
  · intro f bs
    constructor
    · rw [writeBatchesGo_eq]
      simp
    · exact sumOk_add_sumFail f bs 0
  · intro f pre post bj hf
    have htrue : ∀ k, k ≠ pre.length → f k = true := by
      intro k hk
      cases hfk : f k
      · exact absurd ((hf k).mp hfk) hk
      · rfl
    have hfalse : f pre.length = false := (hf pre.length).mpr rfl
    rw [writeBatchesGo_eq]
    have h1 : sumOk f 0 (pre ++ bj :: post) = totalLen pre + totalLen post := by
      rw [sumOk_append]
      simp only [Nat.zero_add]
      rw [sumOk_all_true f pre 0 (fun k _ h2 => htrue k (by omega))]
      simp only [sumOk]
      rw [if_neg (by simp [hfalse])]
      rw [sumOk_all_true f post (pre.length + 1) (fun k h1 _ => htrue k (by omega))]
      omega
    have h2 : sumFail f 0 (pre ++ bj :: post) = bj.length := by
      rw [sumFail_append]
      simp only [Nat.zero_add]
      rw [sumFail_all_true f pre 0 (fun k _ h2 => htrue k (by omega))]
      simp only [sumFail]
      rw [if_neg (by simp [hfalse])]
      rw [sumFail_all_true f post (pre.length + 1) (fun k h1 _ => htrue k (by omega))]
      omega
    rw [h1, h2]
    simp

/-- C7 witness: success on the second attempt; backoff delays 1 s and 2 s
for a fully failing batch with base 2 and three attempts; among three
batches where only the middle one (size 2) fails, the loop reports 2
written and 2 errors. -/
theorem batch_retry_and_isolation_witness :
    (write_batch_with_retry (fun a => decide (a = 1)) 2 3).1 = true ∧
    (write_batch_with_retry (fun _ => false) 2 3).2 = [1, 2] ∧
    writeBatchesGo (fun i => decide (i ≠ 1)) 0 0 0 [[qW], [qW, qW], [qW]] = (2, 2) := by
  refine ⟨?_, ?_, ?_⟩
  · exact (batch_retry_and_isolation.1 (fun a => decide (a = 1)) 2 3).mpr
      ⟨1, by omega, by decide⟩
  · rw [batch_retry_and_isolation.2.1 (fun _ => false) 2 3 (fun a _ => rfl)]
    decide
  · have := batch_retry_and_isolation.2.2.2 (fun i => decide (i ≠ 1))
      [[qW]] [[qW]] [qW, qW] (by intro i; simp)
    simpa [totalLen] using this

/-- A point's measurement appears in the batch's first-occurrence list. -/
theorem foldl_measurements_mem :
    ∀ (l : List RawPoint) (acc : List String) (m : String),
      (m ∈ acc ∨ ∃ p ∈ l, p.measurement = m) →
      m ∈ l.foldl
        (fun acc p => if acc.contains p.measurement then acc else acc ++ [p.measurement])
        acc := by
  intro l
  induction l with
  | nil =>
    intro acc m h
    rcases h with h | ⟨p, hp, _⟩
    · exact h
    · simp at hp
  | cons x xs ih =>
    intro acc m h
    simp only [List.foldl_cons]
    apply ih
    rcases h with h | ⟨p, hp, hm⟩
    · left
      by_cases hc : acc.contains x.measurement = true
      · rw [if_pos hc]; exact h
      · rw [if_neg hc]; exact List.mem_append.mpr (Or.inl h)
    · rcases List.mem_cons.mp hp with heq | hp'
      · left
        subst heq
        subst hm
        by_cases hc : acc.contains p.measurement = true
        · rw [if_pos hc]
          exact List.elem_iff.mp hc
        · rw [if_neg hc]
          exact List.mem_append.mpr (Or.inr (by simp))
      · exact Or.inr ⟨p, hp', hm⟩

/-- Membership version for `measurementsOf`. -/
theorem mem_measurementsOf {ps : List RawPoint} {p : RawPoint} (hp : p ∈ ps) :
    p.measurement ∈ measurementsOf ps :=
  foldl_measurements_mem ps [] p.measurement (Or.inr ⟨p, hp, rfl⟩)

/-- Folding `min` only decreases the accumulator. -/
theorem foldl_min_le_init : ∀ (xs : List Int) (x : Int), xs.foldl min x ≤ x := by
  intro xs
  induction xs with
  | nil => intro x; simp
  | cons y ys ih =>
    intro x
    simp only [List.foldl_cons]
    exact le_trans (ih (min x y)) (min_le_left x y)

/-- The `min` fold is below every member. -/
theorem foldl_min_le_mem : ∀ (xs : List Int) (x a : Int), a ∈ xs → xs.foldl min x ≤ a := by
  intro xs
  induction xs with
  | nil => intro x a h; simp at h
  | cons y ys ih =>
    intro x a h
    simp only [List.foldl_cons]
    rcases List.mem_cons.mp h with heq | hy
    · subst heq
      exact le_trans (foldl_min_le_init ys (min x a)) (min_le_right x a)
    · exact ih (min x y) a hy

/-- The incremental minimum of `load_existing_data_cache` is a lower bound. -/
theorem listMinD_le {l : List Int} {a : Int} (h : a ∈ l) : listMinD l ≤ a := by
  cases l with
  | nil => simp at h
  | cons x xs =>
    unfold listMinD
    rcases List.mem_cons.mp h with heq | hx
    · subst heq; exact foldl_min_le_init xs a
    · exact foldl_min_le_mem xs x a hx

/-- Folding `max` only increases the accumulator. -/
theorem le_foldl_max_init : ∀ (xs : List Int) (x : Int), x ≤ xs.foldl max x := by
  intro xs
  induction xs with
  | nil => intro x; simp
  | cons y ys ih =>
    intro x
    simp only [List.foldl_cons]
    exact le_trans (le_max_left x y) (ih (max x y))

/-- The `max` fold is above every member. -/
theorem mem_le_foldl_max : ∀ (xs : List Int) (x a : Int), a ∈ xs → a ≤ xs.foldl max x := by
  intro xs
  induction xs with
  | nil => intro x a h; simp at h
  | cons y ys ih =>
    intro x a h
    simp only [List.foldl_cons]
    rcases List.mem_cons.mp h with heq | hy
    · subst heq
      exact le_trans (le_max_right x a) (le_foldl_max_init ys (max x a))
    · exact ih (max x y) a hy

/-- The incremental maximum of `load_existing_data_cache` is an upper bound. -/
theorem le_listMaxD {l : List Int} {a : Int} (h : a ∈ l) : a ≤ listMaxD l := by
  cases l with
  | nil => simp at h
  | cons x xs =>
    unfold listMaxD
    rcases List.mem_cons.mp h with heq | hx
    · subst heq; exact le_foldl_max_init xs a
    · exact mem_le_foldl_max xs x a hx

/-- When every point of the batch is a cache duplicate, the filter/prepare
loop counts them all as duplicates and prepares nothing. -/
theorem prepStep_all_dup (cfg : ConfigM) (cache : DupCache) :
    ∀ (ps : List RawPoint) (d e : ℕ) (acc : List PreparedPoint),
      (∀ p ∈ ps, is_duplicate cache p.measurement p.time = true) →
      ps.foldl (prepStep cfg cache true) (d, e, acc) = (d + ps.length, e, acc) := by
  intro ps
  induction ps with
  | nil => intro d e acc _; simp
  | cons p rest ih =>
    intro d e acc hall
    simp only [List.foldl_cons]
    have hd : is_duplicate cache p.measurement p.time = true :=
      hall p (List.mem_cons_self _ _)
    have hstep : prepStep cfg cache true (d, e, acc) p = (d + 1, e, acc) := by
      unfold prepStep
      rw [if_pos ⟨rfl, hd⟩]
    rw [hstep, ih (d + 1) e acc (fun x hx => hall x (List.mem_cons_of_mem _ hx))]
    have hidx : d + 1 + rest.length = d + (rest.length + 1) := by omega
    rw [hidx]
    simp

/-- C1: re-running the writer over a batch whose every point's (measurement,
exact timestamp) pair already exists in the store, with duplicate
suppression enabled and a live store (window query answering exactly, within
the query's 10000-row cap), classifies every candidate as a duplicate:
`written = 0`, `duplicates = |batch|`, `errors = 0` — the second run of an
unchanged input writes zero net-new points. -/
theorem write_points_batch_second_run (cfg : ConfigM) (store : Store)
    (clientOk : ℕ → ℕ → Bool) (ps : List RawPoint)
    (hstore : store.length ≤ 10000)
    (hdup : ∀ p ∈ ps, (p.measurement, p.time) ∈ store) :
    write_points_batch cfg (goodStore store) clientOk ps true =
      { written := 0, duplicates := ps.length, errors := 0 } := by
  by_cases hemp : ps.isEmpty
  · have hnil : ps = [] := List.isEmpty_iff.mp hemp
    subst hnil
    rfl
  · have hdupall : ∀ p ∈ ps,
        is_duplicate (load_existing_data_cache (goodStore store) cfg.windowHours ps)
          p.measurement p.time = true := by
      intro p hp
      have hm : p.measurement ∈ measurementsOf ps := mem_measurementsOf hp
      have hlk := lookup_map_pair
        (fun m => check_for_duplicates (goodStore store) m
          (listMinD (groupTimes ps m) - (cfg.windowHours : Int) * 3600)
          (listMaxD (groupTimes ps m) + (cfg.windowHours : Int) * 3600))
        (measurementsOf ps) p.measurement hm
      have htime : p.time ∈ groupTimes ps p.measurement := by
        unfold groupTimes
        exact List.mem_map.mpr ⟨p, List.mem_filter.mpr ⟨hp, by simp⟩, rfl⟩
      have hwnn : (0 : Int) ≤ (cfg.windowHours : Int) * 3600 := by positivity
      have hlo : listMinD (groupTimes ps p.measurement) - (cfg.windowHours : Int) * 3600
          ≤ p.time := le_trans (by omega) (listMinD_le htime)
      have hhi : p.time ≤
          listMaxD (groupTimes ps p.measurement) + (cfg.windowHours : Int) * 3600 :=
        le_trans (le_listMaxD htime) (by omega)
      have hq : p.time ∈ check_for_duplicates (goodStore store) p.measurement
          (listMinD (groupTimes ps p.measurement) - (cfg.windowHours : Int) * 3600)
          (listMaxD (groupTimes ps p.measurement) + (cfg.windowHours : Int) * 3600) := by
        unfold check_for_duplicates goodStore
        dsimp only
        rw [List.take_of_length_le
          (le_trans (by simpa using List.length_filter_le _ store) hstore)]
        exact List.mem_map.mpr ⟨(p.measurement, p.time),
          List.mem_filter.mpr ⟨hdup p hp, by simp [hlo, hhi]⟩, rfl⟩
      unfold is_duplicate
      rw [show (load_existing_data_cache (goodStore store) cfg.windowHours ps).lookup
          p.measurement = some (check_for_duplicates (goodStore store) p.measurement
            (listMinD (groupTimes ps p.measurement) - (cfg.windowHours : Int) * 3600)
            (listMaxD (groupTimes ps p.measurement) + (cfg.windowHours : Int) * 3600))
          from hlk]
      dsimp only
      exact List.elem_iff.mpr hq
    have hfold : ps.foldl
        (prepStep cfg (load_existing_data_cache (goodStore store) cfg.windowHours ps) true)
        ((0 : ℕ), (0 : ℕ), ([] : List PreparedPoint)) = (ps.length, 0, []) := by
      have := prepStep_all_dup cfg
        (load_existing_data_cache (goodStore store) cfg.windowHours ps) ps 0 0 [] hdupall
      simpa using this
    unfold write_points_batch
    rw [if_neg (by simpa using hemp)]
    dsimp only
    rw [if_pos rfl, hfold]
    rfl

/-- C1 witness: a second run of the two witness points against the store
holding exactly their (measurement, timestamp) pairs writes nothing and
reports two duplicates. -/
theorem write_points_batch_second_run_witness :
    write_points_batch cfgW (goodStore storeW) (fun _ _ => true) [pW, pW2] true =
      { written := 0, duplicates := 2, errors := 0 } :=
  write_points_batch_second_run cfgW storeW (fun _ _ => true) [pW, pW2]
    (by decide) (by decide)

/-- One preview-mode loop iteration leaves the external state untouched. -/
theorem streamStep_preview_ext (env : RunEnv) (batchSize checkpointInterval : ℕ)
    (st : LoopState) (e : ElemOutcome) :
    (streamStep env true batchSize checkpointInterval st e).ext = st.ext := by
  unfold streamStep
  rcases e with p | _ | _ <;> dsimp only <;> split_ifs <;> first | rfl | simp_all

/-- One loop iteration accepts at most one point. -/
theorem streamStep_accepted_le (env : RunEnv) (preview : Bool)
    (batchSize checkpointInterval : ℕ) (st : LoopState) (e : ElemOutcome) :
    (streamStep env preview batchSize checkpointInterval st e).accepted ≤ st.accepted + 1 := by
  unfold streamStep
  rcases e with p | _ | _ <;> dsimp only <;> split_ifs <;> simp

/-- The preview loop never touches the external state and, entered with at
most 99 accepted points, exits with at most 100. -/
theorem streamLoop_preview (env : RunEnv) (batchSize checkpointInterval : ℕ) :
    ∀ (elems : List ElemOutcome) (st : LoopState), st.accepted ≤ 99 →
      (streamLoop env true batchSize checkpointInterval elems st).ext = st.ext ∧
      (streamLoop env true batchSize checkpointInterval elems st).accepted ≤ 100 := by
  intro elems
  induction elems with
  | nil =>
    intro st h
    refine ⟨rfl, ?_⟩
    show st.accepted ≤ 100
    omega
  | cons e es ih =>
    intro st h
    unfold streamLoop
    dsimp only
    have hstep := streamStep_preview_ext env batchSize checkpointInterval st e
    have hacc := streamStep_accepted_le env true batchSize checkpointInterval st e
    by_cases hb : (100 : ℕ) ≤ (streamStep env true batchSize checkpointInterval st e).accepted
    · rw [if_pos ⟨rfl, hb⟩]
      exact ⟨hstep, by omega⟩
    · rw [if_neg (fun hcon => hb hcon.2)]
      have h99 : (streamStep env true batchSize checkpointInterval st e).accepted ≤ 99 := by
        omega
      rcases ih (streamStep env true batchSize checkpointInterval st e) h99 with ⟨h1, h2⟩
      exact ⟨h1.trans hstep, h2⟩

/-- C9: a preview (dry) run of the streaming processor performs no flush to
the store, persists no checkpoint and makes no tracker update — the
external state after `process_file_streaming` equals the state before — and
a fresh preview run accepts at most ~100 points before stopping. -/
theorem preview_run_frame (env : RunEnv) (batchSize checkpointInterval : ℕ)
    (elems : List ElemOutcome) (st : LoopState) (hacc : st.accepted = 0) :
    (process_file_streaming env true batchSize checkpointInterval elems st).ext = st.ext ∧
    (process_file_streaming env true batchSize checkpointInterval elems st).accepted ≤ 100 := by
  unfold process_file_streaming finishRun
  rw [if_pos rfl]
  exact streamLoop_preview env batchSize checkpointInterval elems st (by omega)

/-- C9 witness: the concrete preview run over the witness elements, against
an environment whose flush/checkpoint/tracker operations all visibly mutate
state, leaves the external state exactly as it started. -/
theorem preview_run_frame_witness :
    (process_file_streaming envW true 1 1 elemsW stW).ext = stW.ext ∧
    (process_file_streaming envW true 1 1 elemsW stW).accepted ≤ 100 :=
  preview_run_frame envW 1 1 elemsW stW rfl

end AppleHealth
